import Mathlib

/-!
Shallow embedding of the `henalolp/notice` canister (`src/src/index.ts`).

The repository file contains two concatenated revisions of the canister.
The embedding below follows the later revision (the one with the
centralized `validateNoticeInput` helper and the `MAX_ID_LENGTH` check);
for the serialization decoder we follow the revision that performs the
explicit missing-field check (`NoticeImplSerialization.fromBytes`,
lines 99-119), which coincides with the other revision on every payload
whose required fields are present.

Modelling conventions:
* JavaScript strings are modelled by Lean `String` (a list of characters);
  `.length`, `.trim()`, `.toLowerCase()` and `.includes()` are modelled by
  explicit executable functions over the character list.  The models agree
  with JavaScript on the ASCII character range; the source data (ids
  restricted to `[A-Za-z0-9_-]`, ASCII error messages) lives there.
* `nat64` timestamps are modelled by `Nat`; `BigInt.prototype.toString`
  and the `BigInt` conversion applied to them are modelled by an
  executable decimal printer/parser pair (`decRepr` / `jsBigInt?`).
* The `StableBTreeMap` is modelled by a key-ordered association list;
  `insert` keeps the list ordered, `values()`/`keys()` iterate in list
  (= key) order, matching the map's key-ordered iteration.
* `ic.time()` is passed to every mutating operation as an explicit `now`
  argument.
* Byte buffers are modelled at the parsed-JSON level: `TextEncoder` /
  `JSON.stringify` and `TextDecoder` / `JSON.parse` are mutually inverse
  on the object shape the codec produces, so `toBytes` / `fromBytes` act
  on a `NoticeData` record of optional fields (`none` models both an
  absent key and an explicit `null`, which the decoder's truthiness and
  `??` tests cannot distinguish).
-/

deriving instance DecidableEq for Except

/-- Model of the JavaScript whitespace test used by `String.prototype.trim`
(agrees with JavaScript on ASCII whitespace). -/
def charIsWS (c : Char) : Bool := c.isWhitespace

/-- Trim leading and trailing whitespace from a character list. -/
def trimList (l : List Char) : List Char :=
  ((l.dropWhile charIsWS).reverse.dropWhile charIsWS).reverse

/-- Model of `String.prototype.trim`. -/
def jsTrim (s : String) : String := ⟨trimList s.data⟩

/-- Model of `String.prototype.toLowerCase` (ASCII case mapping). -/
def jsToLower (s : String) : String := ⟨s.data.map Char.toLower⟩

/-- Does the pattern occur at the head of the list? -/
def hasPre : List Char → List Char → Bool
  | [], _ => true
  | _ :: _, [] => false
  | p :: ps, c :: cs => p == c && hasPre ps cs

/-- Does the pattern occur anywhere in the list? -/
def hasSub (pat : List Char) : List Char → Bool
  | [] => hasPre pat []
  | c :: cs => hasPre pat (c :: cs) || hasSub pat cs

/-- Model of `String.prototype.includes`. -/
def strIncludes (s pat : String) : Bool := hasSub pat.data s.data

/-- Numeric value of a decimal digit character. -/
def digitVal? (c : Char) : Option Nat :=
  if c.isDigit then some (c.toNat - 48) else none

/-- Left fold accumulating a decimal number; `none` once a non-digit is hit. -/
def parseFold : Option Nat → List Char → Option Nat
  | acc, [] => acc
  | acc, c :: cs => parseFold (acc.bind fun a => (digitVal? c).map fun d => 10 * a + d) cs

/-- Model of the `BigInt` conversion on the `nat64`-relevant domain: a string
of decimal digits parses to its value, the empty string parses to `0`
(as `BigInt("")` does), anything containing a non-digit fails. -/
def jsBigInt? (s : String) : Option Nat := parseFold (some 0) s.data

/-- Decimal digit character for a value below ten. -/
def digitChar (d : Nat) : Char := Char.ofNat (48 + d)

/-- Fuel-driven decimal printer accumulating digits most-significant first,
mirroring the structure of the runtime's decimal conversion. -/
def decCore : Nat → Nat → List Char → List Char
  | 0, _, acc => acc
  | fuel + 1, n, acc =>
    let acc' := digitChar (n % 10) :: acc
    if n / 10 = 0 then acc' else decCore fuel (n / 10) acc'

/-- Model of `BigInt.prototype.toString` on `nat64` values. -/
def decRepr (n : Nat) : String := ⟨decCore (n + 1) n []⟩

/-- Model of the regular expression test `/^[a-zA-Z0-9-_]+$/.test(id)`. -/
def regexIdOk (id : String) : Bool :=
  id ≠ "" && id.data.all fun c => c.isAlphanum || c == '-' || c == '_'

/-- Error payload of the canister operations
(`type NoticeError = { NotFound: string } | { InvalidInput: string }`). -/
inductive NoticeError where
  | NotFound (msg : String)
  | InvalidInput (msg : String)
deriving DecidableEq, Repr

/-- The `Notice` record (`interface Notice` / `class NoticeImpl`). -/
structure NoticeImpl where
  id : String
  title : String
  description : String
  createdAt : Nat
  updatedAt : Option Nat
  isActive : Bool
deriving DecidableEq, Repr

/-- Centralized validator `validateNoticeInput(id, title, description)`:
the if-chain of the source, first violated rule selecting the message. -/
def validateNoticeInput (id title description : String) : Except String Unit :=
  if id = "" ∨ (jsTrim id).length = 0 then .error "ID cannot be empty"
  else if id.length > 100 then .error "ID cannot exceed 100 characters"
  else if ¬ regexIdOk id then
    .error "ID can only contain alphanumeric characters, hyphens, and underscores"
  else if title = "" ∨ (jsTrim title).length = 0 then .error "Title cannot be empty"
  else if title.length > 200 then .error "Title cannot exceed 200 characters"
  else if description = "" ∨ (jsTrim description).length = 0 then
    .error "Description cannot be empty"
  else if description.length > 1000 then .error "Description cannot exceed 1000 characters"
  else .ok ()

/-- The throwing `NoticeImpl` constructor: `validate()` runs on every
construction; a throw is modelled as an `Except.error`. -/
def NoticeImpl.make (id title description : String) (createdAt : Nat)
    (updatedAt : Option Nat) (isActive : Bool) : Except String NoticeImpl := do
  validateNoticeInput id title description
  pure ⟨id, title, description, createdAt, updatedAt, isActive⟩

/-- Static factory `NoticeImpl.create`: trims the inputs, stamps
`createdAt = ic.time()`, leaves `updatedAt` null, then constructs
(and hence validates). -/
def NoticeImpl.create (now : Nat) (id title description : String)
    (isActive : Bool) : Except String NoticeImpl :=
  NoticeImpl.make (jsTrim id) (jsTrim title) (jsTrim description) now none isActive

example : validateNoticeInput "ok-id_1" "t" "d" = .ok () := by decide
example : validateNoticeInput "bad id!" "t" "d" =
    .error "ID can only contain alphanumeric characters, hyphens, and underscores" := by decide
example : jsTrim "  a b  " = "a b" := by decide
example : decRepr 0 = "0" := by decide
example : decRepr 1234 = "1234" := by decide
example : jsBigInt? "007" = some 7 := by decide
example : jsBigInt? "" = some 0 := by decide
example : jsBigInt? "1a" = none := by decide
/-- Parsed-JSON shape of the codec's payload: each field either absent /
`null` (`none`) or carrying the encoded value.  Timestamps travel as
decimal strings, exactly as `toBytes` writes them. -/
structure NoticeData where
  id : Option String
  title : Option String
  description : Option String
  createdAt : Option String
  updatedAt : Option String
  isActive : Option Bool
deriving DecidableEq, Repr

/-- JavaScript falsiness of an optional string field: absent, `null` and
the empty string are all falsy. -/
def falsyStr : Option String → Bool
  | none => true
  | some s => s == ""

/-- Decoding of the optional `updatedAt` field, the inline expression
`data.updatedAt ? BigInt(data.updatedAt) : null` of `fromBytes`:
falsy encodings give `null`, a truthy string is converted by `BigInt`
(whose failure propagates as `none` here). -/
def decodeUpdatedAt : Option String → Option (Option Nat)
  | none => some none
  | some s => if s = "" then some none else (jsBigInt? s).map some

namespace NoticeImplSerialization

/-- Encoder `NoticeImplSerialization.toBytes`, modelled at the level of the
object handed to `JSON.stringify`: `createdAt` via `.toString()`, and
`updatedAt` via the truthiness test `notice.updatedAt ? notice.updatedAt.toString() : null`
(so a present value `0` is falsy and encodes as `null`). -/
def toBytes (n : NoticeImpl) : NoticeData :=
  { id := some n.id
    title := some n.title
    description := some n.description
    createdAt := some (decRepr n.createdAt)
    updatedAt := match n.updatedAt with
      | none => none
      | some t => if t = 0 then none else some (decRepr t)
    isActive := some n.isActive }

/-- Body of `NoticeImplSerialization.fromBytes` (checked revision,
lines 99-119): reject falsy required fields, convert the timestamps with
`BigInt`, default `isActive` with `?? true`, then run the validating
constructor. -/
def fromBytesCore (d : NoticeData) : Except String NoticeImpl :=
  if falsyStr d.id || falsyStr d.title || falsyStr d.description || falsyStr d.createdAt then
    .error "Missing required fields in deserialized data"
  else
    match jsBigInt? (d.createdAt.getD "") with
    | none => .error "Cannot convert createdAt to a BigInt"
    | some created =>
      match decodeUpdatedAt d.updatedAt with
      | none => .error "Cannot convert updatedAt to a BigInt"
      | some updated =>
        NoticeImpl.make (d.id.getD "") (d.title.getD "") (d.description.getD "")
          created updated (d.isActive.getD true)

/-- Decoder `fromBytes`: the surrounding `catch` re-wraps every thrown
message with the `Deserialization failed:` marker. -/
def fromBytes (d : NoticeData) : Except String NoticeImpl :=
  (fromBytesCore d).mapError fun m => "Deserialization failed: " ++ m

end NoticeImplSerialization

/-- The stable map, modelled as a key-ordered association list. -/
abbrev Store := List (String × NoticeImpl)

namespace NoticesStorage

/-- Point lookup `noticesStorage.get(key)`. -/
def get : Store → String → Option NoticeImpl
  | [], _ => none
  | (k, v) :: t, key => if key = k then some v else get t key

/-- Membership test `noticesStorage.containsKey(key)`. -/
def containsKey (s : Store) (key : String) : Bool := (get s key).isSome

/-- Insert-or-overwrite `noticesStorage.insert(key, v)`, keeping the list
ordered by key (the B-tree map iterates in key order). -/
def insert : Store → String → NoticeImpl → Store
  | [], key, v => [(key, v)]
  | (k, w) :: t, key, v =>
    if key = k then (key, v) :: t
    else if key < k then (key, v) :: (k, w) :: t
    else (k, w) :: insert t key v

/-- Removal `noticesStorage.remove(key)`. -/
def remove : Store → String → Store
  | [], _ => []
  | (k, w) :: t, key => if key = k then t else (k, w) :: remove t key

/-- Key iteration `noticesStorage.keys()` (key order). -/
def keys (s : Store) : List String := s.map Prod.fst

/-- Value iteration `noticesStorage.values()` (key order). -/
def values (s : Store) : List NoticeImpl := s.map Prod.snd

end NoticesStorage

/-- Fallback record for the non-null assertion `noticesStorage.get(key)!`
(never reached when the key was just drawn from the map). -/
def defaultNotice : NoticeImpl := ⟨"", "", "", 0, none, false⟩

/-- Exported operation `createNotice(id, title, description, isActive)`:
duplicate check on the raw id, construction via the trimming factory
(errors caught as `InvalidInput`), insertion under the record's own
(trimmed) id. -/
def createNotice (s : Store) (now : Nat) (id title description : String)
    (isActive : Bool) : Except NoticeError String × Store :=
  if NoticesStorage.containsKey s id then
    (.error (.InvalidInput ("Notice with ID " ++ id ++ " already exists")), s)
  else
    match NoticeImpl.create now id title description isActive with
    | .error msg => (.error (.InvalidInput msg), s)
    | .ok n =>
        (.ok ("Notice with ID " ++ id ++ " created successfully."),
         NoticesStorage.insert s n.id n)

/-- Exported query `getNoticeById(id)`. -/
def getNoticeById (s : Store) (id : String) : Except NoticeError NoticeImpl :=
  match NoticesStorage.get s id with
  | none => .error (.NotFound ("Notice with ID " ++ id ++ " not found"))
  | some n => .ok n

/-- Body of a found `updateNotice` call: the conditional re-validation of
the would-be merged fields (run when a text field was supplied), followed
by the construction of the updated record — supplied fields trimmed,
`createdAt` kept, `updatedAt` stamped with `ic.time()`, `isActive` merged
with `??`.  A throw from either step is the `Except.error`. -/
def updateStep (now : Nat) (id : String) (existing : NoticeImpl)
    (title description : Option String) (isActive : Option Bool) :
    Except String NoticeImpl :=
  if title.isSome || description.isSome then
    match validateNoticeInput id (title.getD existing.title)
        (description.getD existing.description) with
    | .error m => .error m
    | .ok _ =>
        NoticeImpl.make id ((title.map jsTrim).getD existing.title)
          ((description.map jsTrim).getD existing.description)
          existing.createdAt (some now) (isActive.getD existing.isActive)
  else
    NoticeImpl.make id ((title.map jsTrim).getD existing.title)
      ((description.map jsTrim).getD existing.description)
      existing.createdAt (some now) (isActive.getD existing.isActive)

/-- Exported operation `updateNotice(id, title, description, isActive)`:
lookup, then the validating update step, then insertion under the same
key; a throw surfaces as `InvalidInput`. -/
def updateNotice (s : Store) (now : Nat) (id : String)
    (title description : Option String) (isActive : Option Bool) :
    Except NoticeError String × Store :=
  match NoticesStorage.get s id with
  | none => (.error (.NotFound ("Notice with ID " ++ id ++ " not found")), s)
  | some existing =>
    match updateStep now id existing title description isActive with
    | .error msg => (.error (.InvalidInput msg), s)
    | .ok n =>
        (.ok ("Notice with ID " ++ id ++ " updated successfully."),
         NoticesStorage.insert s id n)

/-- Exported operation `deleteNotice(id)` (hard removal in this revision). -/
def deleteNotice (s : Store) (id : String) : Except NoticeError String × Store :=
  if NoticesStorage.containsKey s id then
    (.ok ("Notice with ID " ++ id ++ " deleted successfully."), NoticesStorage.remove s id)
  else
    (.error (.NotFound ("Notice with ID " ++ id ++ " not found")), s)

/-- Exported query `getAllNotices()`. -/
def getAllNotices (s : Store) : List NoticeImpl := NoticesStorage.values s

/-- Exported query `getNotices(limit, offset)`: pagination over the
key-ordered key list via `keys.slice(offset, offset + limit)` (exact for
the non-negative arguments admitted by the guard), each key resolved with
`noticesStorage.get(key)!`. -/
def getNotices (s : Store) (limit offset : Int) :
    Except NoticeError (List NoticeImpl × Nat) :=
  if limit < 0 ∨ offset < 0 then
    .error (.InvalidInput "Limit and offset must be non-negative")
  else
    .ok (((((NoticesStorage.keys s).drop offset.toNat).take limit.toNat).map
        fun k => (NoticesStorage.get s k).getD defaultNotice),
      (NoticesStorage.keys s).length)

/-- Exported query `searchNotices(query)`: reject blank queries, lower-case
and trim the query, filter the key-ordered values on case-insensitive
substring containment in title or description. -/
def searchNotices (s : Store) (q : String) : Except NoticeError (List NoticeImpl) :=
  if q = "" ∨ (jsTrim q).length = 0 then
    .error (.InvalidInput "Search query cannot be empty")
  else
    let searchTerm := jsTrim (jsToLower q)
    .ok ((NoticesStorage.values s).filter fun n =>
      strIncludes (jsToLower n.title) searchTerm ||
      strIncludes (jsToLower n.description) searchTerm)

example : strIncludes "office closure" "fic" = true := by decide
example : strIncludes "xt" " t" = false := by decide

section Scratch

open NoticeImplSerialization

example : fromBytes (toBytes ⟨"a", "t", "d", 5, some 7, true⟩) =
    .ok ⟨"a", "t", "d", 5, some 7, true⟩ := by decide

example : fromBytes (toBytes ⟨"a", "t", "d", 5, some 0, true⟩) =
    .ok ⟨"a", "t", "d", 5, none, true⟩ := by decide

example : createNotice [] 3 " a " "t" "d" true =
    (.ok "Notice with ID  a  created successfully.", [("a", ⟨"a", "t", "d", 3, none, true⟩)]) := by
  decide

example :
    createNotice [("a", ⟨"a", "t", "d", 1, none, true⟩)] 5 " a " "t2" "d2" true =
    (.ok "Notice with ID  a  created successfully.", [("a", ⟨"a", "t2", "d2", 5, none, true⟩)]) := by
  decide

example : searchNotices [("k", ⟨"k", "Office Closure", "dd", 1, none, true⟩)] "CLOSURE" =
    .ok [⟨"k", "Office Closure", "dd", 1, none, true⟩] := by decide

example : getNotices [("a", ⟨"a", "t", "d", 1, none, true⟩), ("b", ⟨"b", "t", "d", 1, none, true⟩)]
    1 1 = .ok ([⟨"b", "t", "d", 1, none, true⟩], 2) := by decide

example : updateNotice [("a", ⟨"a", "t", "d", 1, none, true⟩)] 9 "a" (some " New ") none none =
    (.ok "Notice with ID a updated successfully.",
     [("a", ⟨"a", "New", "d", 1, some 9, true⟩)]) := by decide

example : deleteNotice [("a", ⟨"a", "t", "d", 1, none, true⟩)] "a" =
    (.ok "Notice with ID a deleted successfully.", []) := by decide

end Scratch

/-! Lemmas about the string model. -/

theorem dropWhile_head_false {p : Char → Bool} :
    ∀ {l c t}, List.dropWhile p l = c :: t → p c = false := by
  intro l
  induction l with
  | nil => intro c t h; simp [List.dropWhile] at h
  | cons x xs ih =>
    intro c t h
    rw [List.dropWhile_cons] at h
    by_cases hx : p x
    · rw [if_pos hx] at h; exact ih h
    · rw [if_neg hx] at h
      cases h
      simpa using hx

theorem trimList_append (l : List Char) :
    ∃ w, List.dropWhile charIsWS l = trimList l ++ w := by
  refine ⟨((List.dropWhile charIsWS l).reverse.takeWhile charIsWS).reverse, ?_⟩
  unfold trimList
  conv_lhs => rw [← (List.dropWhile charIsWS l).reverse_reverse,
    ← List.takeWhile_append_dropWhile (p := charIsWS)
      (l := (List.dropWhile charIsWS l).reverse)]
  rw [List.reverse_append]

theorem trimList_idem (l : List Char) : trimList (trimList l) = trimList l := by
  obtain ⟨w, hw⟩ := trimList_append l
  have hstep : List.dropWhile charIsWS (trimList l) = trimList l := by
    cases hr : trimList l with
    | nil => simp
    | cons c t =>
      have hfalse : charIsWS c = false := by
        refine dropWhile_head_false (l := l) (t := t ++ w) ?_
        rw [hw, hr]; rfl
      rw [List.dropWhile_cons, hfalse]
      simp
  show ((List.dropWhile charIsWS (trimList l)).reverse.dropWhile charIsWS).reverse = trimList l
  rw [hstep]
  show ((((List.dropWhile charIsWS l).reverse.dropWhile charIsWS).reverse).reverse.dropWhile
      charIsWS).reverse = trimList l
  rw [List.reverse_reverse, List.dropWhile_idempotent]
  rfl

theorem trimList_length_le (l : List Char) : (trimList l).length ≤ l.length := by
  unfold trimList
  rw [List.length_reverse]
  calc ((List.dropWhile charIsWS l).reverse.dropWhile charIsWS).length
      ≤ (List.dropWhile charIsWS l).reverse.length :=
        (List.dropWhile_suffix charIsWS).length_le
    _ = (List.dropWhile charIsWS l).length := List.length_reverse _
    _ ≤ l.length := (List.dropWhile_suffix charIsWS).length_le

theorem jsTrim_idem (s : String) : jsTrim (jsTrim s) = jsTrim s := by
  show (⟨trimList (trimList s.data)⟩ : String) = ⟨trimList s.data⟩
  rw [trimList_idem]

theorem jsTrim_length_le (s : String) : (jsTrim s).length ≤ s.length := by
  show (trimList s.data).length ≤ s.data.length
  exact trimList_length_le s.data

theorem jsTrim_empty : jsTrim "" = "" := rfl

/-! Lemmas about the decimal printer/parser pair. -/

/-- Weight of the most significant digit position of `n`, i.e. ten to the
number of decimal digits of `n`. -/
def tenPow (n : Nat) : Nat :=
  if n < 10 then 10 else 10 * tenPow (n / 10)
termination_by n
decreasing_by exact Nat.div_lt_self (by omega) (by omega)

theorem tenPow_of_lt {n : Nat} (h : n < 10) : tenPow n = 10 := by
  unfold tenPow; simp [h]

theorem tenPow_of_ge {n : Nat} (h : ¬ n < 10) : tenPow n = 10 * tenPow (n / 10) := by
  conv_lhs => rw [tenPow]
  simp [h]

theorem digitVal_digitChar {d : Nat} (h : d < 10) : digitVal? (digitChar d) = some d := by
  interval_cases d <;> decide

theorem parseFold_digit (a d : Nat) (h : d < 10) (cs : List Char) :
    parseFold (some a) (digitChar d :: cs) = parseFold (some (10 * a + d)) cs := by
  simp [parseFold, digitVal_digitChar h]

theorem parseFold_decCore :
    ∀ (fuel n : Nat) (acc : List Char) (a : Nat), n < fuel →
      parseFold (some a) (decCore fuel n acc) = parseFold (some (a * tenPow n + n)) acc := by
  intro fuel
  induction fuel with
  | zero => intro n acc a h; omega
  | succ f ih =>
    intro n acc a h
    simp only [decCore]
    split
    · next hz =>
      have hlt : n < 10 := by omega
      rw [parseFold_digit a (n % 10) (by omega) acc]
      rw [tenPow_of_lt hlt]
      have : n % 10 = n := by omega
      rw [this]
      ring_nf
    · next hz =>
      have hn0 : 0 < n := by omega
      have hdiv : n / 10 < n := Nat.div_lt_self hn0 (by omega)
      have hf : n / 10 < f := by omega
      rw [ih (n / 10) (digitChar (n % 10) :: acc) a hf]
      rw [parseFold_digit _ (n % 10) (by omega) acc]
      have h10 : ¬ n < 10 := by omega
      rw [tenPow_of_ge h10]
      have hmod : 10 * (n / 10) + n % 10 = n := by omega
      congr 2
      calc 10 * (a * tenPow (n / 10) + n / 10) + n % 10
          = a * (10 * tenPow (n / 10)) + (10 * (n / 10) + n % 10) := by ring
        _ = a * (10 * tenPow (n / 10)) + n := by rw [hmod]

theorem jsBigInt_decRepr (n : Nat) : jsBigInt? (decRepr n) = some n := by
  have h := parseFold_decCore (n + 1) n [] 0 (Nat.lt_succ_self n)
  simpa [jsBigInt?, decRepr, parseFold] using h

theorem decCore_ne_nil : ∀ (fuel n : Nat) (acc : List Char), acc ≠ [] →
    decCore fuel n acc ≠ [] := by
  intro fuel
  induction fuel with
  | zero => intro n acc h; simpa [decCore] using h
  | succ f ih =>
    intro n acc h
    simp only [decCore]
    split
    · exact List.cons_ne_nil _ _
    · exact ih _ _ (List.cons_ne_nil _ _)

theorem decRepr_ne_empty (n : Nat) : decRepr n ≠ "" := by
  intro hcon
  have hdata : decCore (n + 1) n [] = [] := congrArg String.data hcon
  rw [show decCore (n + 1) n [] =
      (if n / 10 = 0 then [digitChar (n % 10)] else decCore n (n / 10) [digitChar (n % 10)])
    from rfl] at hdata
  split at hdata
  · exact List.cons_ne_nil _ _ hdata
  · exact decCore_ne_nil n (n / 10) [digitChar (n % 10)] (List.cons_ne_nil _ _) hdata

/-! Lemmas about the store model. -/

namespace NoticesStorage

theorem get_insert_self (s : Store) (k : String) (v : NoticeImpl) :
    get (insert s k v) k = some v := by
  induction s with
  | nil => simp [insert, get]
  | cons hd t ih =>
    obtain ⟨k', w⟩ := hd
    by_cases h1 : k = k'
    · simp [insert, h1, get]
    · by_cases h2 : k < k'
      · simp [insert, h1, h2, get]
      · simp [insert, h1, h2, get, ih]

theorem mem_insert {s : Store} {k : String} {v : NoticeImpl} :
    ∀ {p : String × NoticeImpl}, p ∈ insert s k v → p = (k, v) ∨ p ∈ s := by
  induction s with
  | nil => intro p h; simpa [insert] using h
  | cons hd t ih =>
    intro p h
    obtain ⟨k', w⟩ := hd
    by_cases h1 : k = k'
    · simp only [insert, if_pos h1] at h
      rcases List.mem_cons.mp h with h | h
      · exact Or.inl h
      · exact Or.inr (List.mem_cons_of_mem _ h)
    · by_cases h2 : k < k'
      · simp only [insert, if_neg h1, if_pos h2] at h
        rcases List.mem_cons.mp h with h | h
        · exact Or.inl h
        · exact Or.inr h
      · simp only [insert, if_neg h1, if_neg h2] at h
        rcases List.mem_cons.mp h with h | h
        · exact Or.inr (by simp [h])
        · rcases ih h with h' | h'
          · exact Or.inl h'
          · exact Or.inr (List.mem_cons_of_mem _ h')

theorem mem_remove {s : Store} {k : String} :
    ∀ {p : String × NoticeImpl}, p ∈ remove s k → p ∈ s := by
  induction s with
  | nil => intro p h; simp [remove] at h
  | cons hd t ih =>
    intro p h
    obtain ⟨k', w⟩ := hd
    by_cases h1 : k = k'
    · simp only [remove, if_pos h1] at h
      exact List.mem_cons_of_mem _ h
    · simp only [remove, if_neg h1] at h
      rcases List.mem_cons.mp h with h | h
      · simp [h]
      · exact List.mem_cons_of_mem _ (ih h)

theorem get_of_mem_nodup {k : String} {v : NoticeImpl} :
    ∀ {s : Store}, (k, v) ∈ s → (keys s).Nodup → get s k = some v := by
  intro s
  induction s with
  | nil => intro hmem _; simp at hmem
  | cons hd t ih =>
    intro hmem hnd
    obtain ⟨k', w⟩ := hd
    rcases List.mem_cons.mp hmem with h | h
    · obtain ⟨h1, h2⟩ := Prod.mk.injEq .. ▸ h
      subst h1; subst h2
      simp [get]
    · have hk : k ≠ k' := by
        intro hkk
        have hkt : k ∈ keys t := List.mem_map_of_mem Prod.fst h
        rw [hkk] at hkt
        exact (List.nodup_cons.mp hnd).1 hkt
      simp only [get, if_neg hk]
      exact ih h (List.nodup_cons.mp hnd).2

end NoticesStorage

/-! Lemmas about the validator and the validating constructor. -/

theorem validateNoticeInput_ok_facts {i t d : String}
    (h : validateNoticeInput i t d = .ok ()) :
    i ≠ "" ∧ (jsTrim i).length ≠ 0 ∧ i.length ≤ 100 ∧ regexIdOk i = true ∧
    t ≠ "" ∧ (jsTrim t).length ≠ 0 ∧ t.length ≤ 200 ∧
    d ≠ "" ∧ (jsTrim d).length ≠ 0 ∧ d.length ≤ 1000 := by
  unfold validateNoticeInput at h
  split_ifs at h with h1 h2 h3 h4 h5 h6 h7
  any_goals simp at h
  push_neg at h1 h4 h6
  exact ⟨h1.1, h1.2, by omega, h3, h4.1, h4.2, by omega, h6.1, h6.2, by omega⟩

theorem NoticeImpl.make_ok {i t d : String} {c : Nat} {u : Option Nat} {a : Bool}
    (h : validateNoticeInput i t d = .ok ()) :
    NoticeImpl.make i t d c u a = .ok ⟨i, t, d, c, u, a⟩ := by
  unfold NoticeImpl.make
  rw [h]
  rfl

theorem NoticeImpl.make_error {i t d : String} {c : Nat} {u : Option Nat} {a : Bool} {m : String}
    (h : validateNoticeInput i t d = .error m) :
    NoticeImpl.make i t d c u a = .error m := by
  unfold NoticeImpl.make
  rw [h]
  rfl

theorem NoticeImpl.make_ok_inv {i t d : String} {c : Nat} {u : Option Nat} {a : Bool}
    {n : NoticeImpl} (h : NoticeImpl.make i t d c u a = .ok n) :
    n = ⟨i, t, d, c, u, a⟩ ∧ validateNoticeInput i t d = .ok () := by
  cases hval : validateNoticeInput i t d with
  | error m =>
    rw [NoticeImpl.make_error hval] at h
    exact absurd h (by simp)
  | ok u0 =>
    cases u0
    rw [NoticeImpl.make_ok hval] at h
    exact ⟨(Except.ok.injEq .. ▸ h).symm, rfl⟩

/-! Claim theorems. -/

/-- C1, counterexample: the Notice with `updatedAt = some 0` is valid
(its fields pass the validator) yet decoding the bytes produced by
encoding it does not return the Notice itself — the encoder's truthiness
test `notice.updatedAt ? ... : null` sends the present value `0` to
`null`, so the claimed round-trip law `decode(encode(n)) = n` fails. -/
theorem c1_round_trip_counterexample :
    validateNoticeInput "a" "t" "d" = .ok () ∧
    NoticeImplSerialization.fromBytes
        (NoticeImplSerialization.toBytes ⟨"a", "t", "d", 1, some 0, true⟩) =
      .ok ⟨"a", "t", "d", 1, none, true⟩ ∧
    NoticeImplSerialization.fromBytes
        (NoticeImplSerialization.toBytes ⟨"a", "t", "d", 1, some 0, true⟩) ≠
      .ok ⟨"a", "t", "d", 1, some 0, true⟩ := by
  refine ⟨by decide, by decide, by decide⟩

/-- C1, amended: for every Notice whose `id`, `title` and `description`
pass the validator and whose `updatedAt` is absent or nonzero (any
`createdAt`, any `isActive`), decoding the encoding yields a Notice
field-wise equal to the original. -/
theorem c1_round_trip (n : NoticeImpl)
    (hvalid : validateNoticeInput n.id n.title n.description = .ok ())
    (hupd : n.updatedAt ≠ some 0) :
    NoticeImplSerialization.fromBytes (NoticeImplSerialization.toBytes n) = .ok n := by
  obtain ⟨hid, -, -, -, hti, -, -, hde, -, -⟩ := validateNoticeInput_ok_facts hvalid
  obtain ⟨id, title, description, createdAt, updatedAt, isActive⟩ := n
  simp only at hid hti hde hvalid hupd
  have hfalsy :
      (falsyStr (some id) || falsyStr (some title) || falsyStr (some description) ||
        falsyStr (some (decRepr createdAt))) = false := by
    simp [falsyStr, hid, hti, hde, decRepr_ne_empty]
  cases updatedAt with
  | none =>
    unfold NoticeImplSerialization.fromBytes NoticeImplSerialization.fromBytesCore
      NoticeImplSerialization.toBytes
    simp only [hfalsy, Bool.false_eq_true, if_false, Option.getD_some, jsBigInt_decRepr,
      decodeUpdatedAt]
    rw [NoticeImpl.make_ok hvalid]
    rfl
  | some t =>
    have ht : ¬ t = 0 := fun h0 => hupd (by rw [h0])
    unfold NoticeImplSerialization.fromBytes NoticeImplSerialization.fromBytesCore
      NoticeImplSerialization.toBytes
    simp only [hfalsy, Bool.false_eq_true, if_false, Option.getD_some, jsBigInt_decRepr,
      decodeUpdatedAt, ht, ite_false, ne_eq, decRepr_ne_empty t, not_false_eq_true,
      Option.map_some']
    rw [NoticeImpl.make_ok hvalid]
    rfl

/-- C1, witness for the amended round-trip law at a concrete valid
Notice with a present nonzero `updatedAt`. -/
theorem c1_round_trip_witness :
    NoticeImplSerialization.fromBytes
        (NoticeImplSerialization.toBytes ⟨"n1", "Fire Drill", "Evacuate at 10am", 5, some 7, true⟩) =
      .ok ⟨"n1", "Fire Drill", "Evacuate at 10am", 5, some 7, true⟩ :=
  c1_round_trip ⟨"n1", "Fire Drill", "Evacuate at 10am", 5, some 7, true⟩ (by decide) (by decide)

/-- C2: when the raw id is already a key of the map, `createNotice` fails
with the duplicate-id error — the `AlreadyExists` outcome, which the code
tags as `InvalidInput` carrying the `already exists` message, the only
error shape reachable from that branch — and returns the store unchanged. -/
theorem c2_duplicate_create (s : Store) (now : Nat) (id title description : String)
    (isActive : Bool) (h : NoticesStorage.containsKey s id = true) :
    createNotice s now id title description isActive =
      (.error (.InvalidInput ("Notice with ID " ++ id ++ " already exists")), s) := by
  unfold createNotice
  rw [h]
  rfl

/-- C2, witness: a duplicate create on a concrete one-record store. -/
theorem c2_duplicate_create_witness :
    createNotice [("a", ⟨"a", "t", "d", 1, none, true⟩)] 5 "a" "x" "y" true =
      (.error (.InvalidInput "Notice with ID a already exists"),
       [("a", ⟨"a", "t", "d", 1, none, true⟩)]) :=
  c2_duplicate_create [("a", ⟨"a", "t", "d", 1, none, true⟩)] 5 "a" "x" "y" true (by decide)

/-- Is the operation outcome an error? -/
def resIsErr : Except NoticeError String → Bool
  | .error _ => true
  | .ok _ => false

/-- C3: whenever `createNotice`, `updateNotice` or `deleteNotice` returns
an error outcome, the store map after the call equals the store map before
the call — no failing call performs a partial write. -/
theorem c3_no_partial_write (s : Store) (now : Nat) (cid ct cd : String) (ca : Bool)
    (uid : String) (ut ud : Option String) (ua : Option Bool) (did : String) :
    (resIsErr (createNotice s now cid ct cd ca).1 = true →
      (createNotice s now cid ct cd ca).2 = s) ∧
    (resIsErr (updateNotice s now uid ut ud ua).1 = true →
      (updateNotice s now uid ut ud ua).2 = s) ∧
    (resIsErr (deleteNotice s did).1 = true →
      (deleteNotice s did).2 = s) := by
  refine ⟨?_, ?_, ?_⟩
  · unfold createNotice
    split
    · intro _; rfl
    · split
      · intro _; rfl
      · intro h; simp [resIsErr] at h
  · unfold updateNotice
    split
    · intro _; rfl
    · split
      · intro _; rfl
      · intro h; simp [resIsErr] at h
  · unfold deleteNotice
    split
    · intro h; simp [resIsErr] at h
    · intro _; rfl

/-- C3, witness: a failing create (empty title), a failing update
(missing id) and a failing delete (missing id) on a concrete store all
leave it untouched. -/
theorem c3_no_partial_write_witness :
    (createNotice [("a", ⟨"a", "t", "d", 1, none, true⟩)] 5 "b" " " "d" true).2 =
      [("a", ⟨"a", "t", "d", 1, none, true⟩)] ∧
    (updateNotice [("a", ⟨"a", "t", "d", 1, none, true⟩)] 5 "z" none none none).2 =
      [("a", ⟨"a", "t", "d", 1, none, true⟩)] ∧
    (deleteNotice [("a", ⟨"a", "t", "d", 1, none, true⟩)] "z").2 =
      [("a", ⟨"a", "t", "d", 1, none, true⟩)] :=
  ⟨(c3_no_partial_write [("a", ⟨"a", "t", "d", 1, none, true⟩)] 5 "b" " " "d" true
      "z" none none none "z").1 (by decide),
   (c3_no_partial_write [("a", ⟨"a", "t", "d", 1, none, true⟩)] 5 "b" " " "d" true
      "z" none none none "z").2.1 (by decide),
   (c3_no_partial_write [("a", ⟨"a", "t", "d", 1, none, true⟩)] 5 "b" " " "d" true
      "z" none none none "z").2.2 (by decide)⟩

/-- C5: an id whose trimmed form exceeds 100 characters is rejected by the
validator with the `IdTooLong` message, and `createNotice` on such an id
always fails with an `InvalidInput` error (the length failure, or the
duplicate-id error when the raw id is somehow already a key) and leaves
the store unchanged. -/
theorem c5_id_too_long (id : String) (h : 100 < (jsTrim id).length) :
    (∀ title description, validateNoticeInput id title description =
      .error "ID cannot exceed 100 characters") ∧
    (∀ (s : Store) (now : Nat) (title description : String) (isActive : Bool),
      ∃ msg, createNotice s now id title description isActive =
        (.error (.InvalidInput msg), s)) := by
  have hne : ¬(id = "" ∨ (jsTrim id).length = 0) := by
    rintro (rfl | h0)
    · rw [jsTrim_empty] at h; simp at h
    · omega
  have hlen : id.length > 100 := lt_of_lt_of_le h (jsTrim_length_le id)
  constructor
  · intro title description
    unfold validateNoticeInput
    rw [if_neg hne, if_pos hlen]
  · intro s now title description isActive
    by_cases hc : NoticesStorage.containsKey s id
    · refine ⟨"Notice with ID " ++ id ++ " already exists", ?_⟩
      unfold createNotice
      rw [hc]
      rfl
    · refine ⟨"ID cannot exceed 100 characters", ?_⟩
      have hne' : ¬(jsTrim id = "" ∨ (jsTrim (jsTrim id)).length = 0) := by
        rw [jsTrim_idem]
        rintro (he | h0)
        · rw [he] at h; simp at h
        · omega
      have hvt : validateNoticeInput (jsTrim id) (jsTrim title) (jsTrim description) =
          .error "ID cannot exceed 100 characters" := by
        unfold validateNoticeInput
        rw [if_neg hne', if_pos h]
      unfold createNotice
      rw [if_neg hc]
      rw [show NoticeImpl.create now id title description isActive =
        .error "ID cannot exceed 100 characters" from NoticeImpl.make_error hvt]

/-- A 101-character id (`"a"*101` of the spec's validation-boundary test). -/
def longId : String := "aaaaaaaaaaaaaaaaaaaaaaaaaaaaaaaaaaaaaaaaaaaaaaaaaaaaaaaaaaaaaaaaaaaaaaaaaaaaaaaaaaaaaaaaaaaaaaaaaaaaa"

/-- C5, witness: the validator and `createNotice` both reject the
101-character id. -/
theorem c5_id_too_long_witness :
    validateNoticeInput longId "t" "d" = .error "ID cannot exceed 100 characters" ∧
    ∃ msg, createNotice [] 0 longId "t" "d" true = (.error (.InvalidInput msg), []) :=
  ⟨(c5_id_too_long longId (by decide)).1 "t" "d",
   (c5_id_too_long longId (by decide)).2 [] 0 "t" "d" true⟩

/-- Shape of the record produced by a successful update step. -/
theorem updateStep_ok_inv {now : Nat} {id : String} {ex : NoticeImpl}
    {t d : Option String} {a : Option Bool} {n : NoticeImpl}
    (h : updateStep now id ex t d a = .ok n) :
    n = ⟨id, (t.map jsTrim).getD ex.title, (d.map jsTrim).getD ex.description,
      ex.createdAt, some now, a.getD ex.isActive⟩ := by
  unfold updateStep at h
  split at h
  · split at h
    · exact absurd h (by simp)
    · exact (NoticeImpl.make_ok_inv h).1
  · exact (NoticeImpl.make_ok_inv h).1

/-- C4: a successful `updateNotice` call on a stored record leaves the
record's `id` and `createdAt` unchanged, stamps `updatedAt` with the
call-time `now`, and keeps the previous value of every field that was not
supplied in the call.  (`hkey` records the store invariant that the stored
record's `id` field equals its key, which every insertion in the source
maintains.) -/
theorem c4_update_preserves (s : Store) (now : Nat) (id : String)
    (ot od : Option String) (oa : Option Bool) (old : NoticeImpl)
    (hold : NoticesStorage.get s id = some old) (hkey : old.id = id)
    (m : String) (s' : Store)
    (hok : updateNotice s now id ot od oa = (.ok m, s')) :
    ∃ nw, NoticesStorage.get s' id = some nw ∧ nw.id = old.id ∧
      nw.createdAt = old.createdAt ∧ nw.updatedAt = some now ∧
      (ot = none → nw.title = old.title) ∧
      (od = none → nw.description = old.description) ∧
      (oa = none → nw.isActive = old.isActive) := by
  unfold updateNotice at hok
  simp only [hold] at hok
  cases hstep : updateStep now id old ot od oa with
  | error msg => simp only [hstep] at hok; simp at hok
  | ok n =>
    simp only [hstep] at hok
    obtain ⟨h1, h2⟩ := Prod.mk.injEq .. ▸ hok
    have hn := updateStep_ok_inv hstep
    subst hn
    refine ⟨⟨id, (ot.map jsTrim).getD old.title, (od.map jsTrim).getD old.description,
      old.createdAt, some now, oa.getD old.isActive⟩, ?_, ?_, ?_, ?_, ?_, ?_, ?_⟩
    · rw [← h2]; exact NoticesStorage.get_insert_self s id _
    · simp [hkey]
    · rfl
    · rfl
    · intro h0; subst h0; rfl
    · intro h0; subst h0; rfl
    · intro h0; subst h0; rfl

/-- C4, witness: an update supplying only `isActive` on a concrete store
keeps id, `createdAt`, title and description and stamps `updatedAt`. -/
theorem c4_update_preserves_witness :
    ∃ nw, NoticesStorage.get [("a", ⟨"a", "t", "d", 1, some 5, false⟩)] "a" = some nw ∧
      nw.id = (⟨"a", "t", "d", 1, none, true⟩ : NoticeImpl).id ∧
      nw.createdAt = (⟨"a", "t", "d", 1, none, true⟩ : NoticeImpl).createdAt ∧
      nw.updatedAt = some 5 ∧
      ((none : Option String) = none → nw.title = (⟨"a", "t", "d", 1, none, true⟩ : NoticeImpl).title) ∧
      ((none : Option String) = none → nw.description = (⟨"a", "t", "d", 1, none, true⟩ : NoticeImpl).description) ∧
      ((some false : Option Bool) = none → nw.isActive = (⟨"a", "t", "d", 1, none, true⟩ : NoticeImpl).isActive) :=
  c4_update_preserves [("a", ⟨"a", "t", "d", 1, none, true⟩)] 5 "a" none none (some false)
    ⟨"a", "t", "d", 1, none, true⟩ (by decide) (by decide)
    "Notice with ID a updated successfully." [("a", ⟨"a", "t", "d", 1, some 5, false⟩)]
    (by decide)

/-- C10: `createNotice` checks for a duplicate with the raw caller id but
inserts under the trimmed id: on a store holding key `a`, a create call
with id `" a "` passes the duplicate check and silently overwrites the
record stored at `a`. -/
theorem c10_trim_overwrite :
    NoticesStorage.containsKey [("a", (⟨"a", "t", "d", 1, none, true⟩ : NoticeImpl))] " a " =
      false ∧
    NoticesStorage.containsKey [("a", (⟨"a", "t", "d", 1, none, true⟩ : NoticeImpl))] "a" =
      true ∧
    jsTrim " a " = "a" ∧
    createNotice [("a", ⟨"a", "t", "d", 1, none, true⟩)] 5 " a " "t2" "d2" true =
      (.ok "Notice with ID  a  created successfully.",
       [("a", ⟨"a", "t2", "d2", 5, none, true⟩)]) :=
  ⟨by decide, by decide, by decide, by decide⟩

/-- C6: for any store with distinct keys (the map invariant), `getNotices`
fails `InvalidInput` exactly when `limit < 0` or `offset < 0`, and
otherwise returns `total` equal to the number of stored records together
with the sub-sequence of the key-ordered value list starting at `offset`
of at most `limit` elements. -/
theorem c6_pagination (s : Store) (limit offset : Int)
    (hnd : (NoticesStorage.keys s).Nodup) :
    (¬(limit < 0 ∨ offset < 0) →
      getNotices s limit offset =
        .ok (((NoticesStorage.values s).drop offset.toNat).take limit.toNat, s.length)) ∧
    ((limit < 0 ∨ offset < 0) →
      getNotices s limit offset =
        .error (.InvalidInput "Limit and offset must be non-negative")) := by
  constructor
  · intro h
    unfold getNotices
    rw [if_neg h]
    have hdt : ((NoticesStorage.keys s).drop offset.toNat).take limit.toNat
        = ((s.drop offset.toNat).take limit.toNat).map Prod.fst := by
      show ((s.map Prod.fst).drop offset.toNat).take limit.toNat = _
      rw [← List.map_drop, ← List.map_take]
    have hmain : (((NoticesStorage.keys s).drop offset.toNat).take limit.toNat).map
          (fun k => (NoticesStorage.get s k).getD defaultNotice)
        = ((NoticesStorage.values s).drop offset.toNat).take limit.toNat := by
      rw [hdt, List.map_map]
      show _ = ((s.map Prod.snd).drop offset.toNat).take limit.toNat
      rw [← List.map_drop, ← List.map_take]
      apply List.map_eq_map_iff.mpr
      intro p hp
      have hps : p ∈ s := List.mem_of_mem_drop (List.mem_of_mem_take hp)
      obtain ⟨k, v⟩ := p
      simp only [Function.comp_apply]
      rw [NoticesStorage.get_of_mem_nodup hps hnd]
      rfl
    rw [hmain]
    have hlen : (NoticesStorage.keys s).length = s.length := List.length_map s Prod.fst
    rw [hlen]
  · intro h
    unfold getNotices
    rw [if_pos h]

/-- C6, witness: on a concrete three-record store, `limit = 2, offset = 1`
returns the middle slice with the full total, and `limit = -1` fails. -/
theorem c6_pagination_witness :
    getNotices [("a", ⟨"a", "t", "d", 1, none, true⟩), ("b", ⟨"b", "u", "e", 2, none, true⟩),
        ("c", ⟨"c", "v", "f", 3, none, true⟩)] 2 1 =
      .ok ([⟨"b", "u", "e", 2, none, true⟩, ⟨"c", "v", "f", 3, none, true⟩], 3) ∧
    getNotices [("a", ⟨"a", "t", "d", 1, none, true⟩), ("b", ⟨"b", "u", "e", 2, none, true⟩),
        ("c", ⟨"c", "v", "f", 3, none, true⟩)] (-1) 0 =
      .error (.InvalidInput "Limit and offset must be non-negative") :=
  ⟨(c6_pagination [("a", ⟨"a", "t", "d", 1, none, true⟩), ("b", ⟨"b", "u", "e", 2, none, true⟩),
      ("c", ⟨"c", "v", "f", 3, none, true⟩)] 2 1 (by decide)).1 (by decide),
   (c6_pagination [("a", ⟨"a", "t", "d", 1, none, true⟩), ("b", ⟨"b", "u", "e", 2, none, true⟩),
      ("c", ⟨"c", "v", "f", 3, none, true⟩)] (-1) 0 (by decide)).2 (by decide)⟩

/-! Substring characterization for the search model. -/

theorem hasPre_iff : ∀ (p l : List Char), hasPre p l = true ↔ ∃ t, l = p ++ t := by
  intro p
  induction p with
  | nil =>
    intro l
    simp [hasPre]
  | cons c cs ih =>
    intro l
    cases l with
    | nil =>
      simp [hasPre]
    | cons x xs =>
      simp only [hasPre, Bool.and_eq_true, beq_iff_eq]
      rw [ih xs]
      constructor
      · rintro ⟨rfl, t, rfl⟩
        exact ⟨t, rfl⟩
      · rintro ⟨t, ht⟩
        injection ht with h1 h2
        exact ⟨h1.symm, t, h2⟩

theorem hasSub_iff : ∀ (p l : List Char), hasSub p l = true ↔ ∃ u t, l = u ++ p ++ t := by
  intro p l
  induction l with
  | nil =>
    show hasPre p [] = true ↔ _
    rw [hasPre_iff]
    constructor
    · rintro ⟨t, ht⟩
      exact ⟨[], t, ht⟩
    · rintro ⟨u, t, ht⟩
      cases u with
      | nil => exact ⟨t, ht⟩
      | cons a us => simp at ht
  | cons c cs ih =>
    show (hasPre p (c :: cs) || hasSub p cs) = true ↔ _
    rw [Bool.or_eq_true, hasPre_iff, ih]
    constructor
    · rintro (⟨t, ht⟩ | ⟨u, t, ht⟩)
      · exact ⟨[], t, by simpa using ht⟩
      · exact ⟨c :: u, t, by simp [ht]⟩
    · rintro ⟨u, t, ht⟩
      cases u with
      | nil => exact Or.inl ⟨t, by simpa using ht⟩
      | cons a us =>
        injection ht with h1 h2
        exact Or.inr ⟨us, t, h2⟩

theorem strIncludes_iff (s pat : String) :
    strIncludes s pat = true ↔ ∃ u t, s.data = u ++ pat.data ++ t :=
  hasSub_iff pat.data s.data

/-- C7, counterexample: on the query `" t"` (non-blank after trimming) the
code searches for the trimmed lower-cased term `"t"` and returns the
record titled `"xt"`, even though the lower-cased title and description do
not contain the lower-cased query `" t"` as a substring — so the claim's
criterion, which lower-cases but does not trim the query, does not
describe the returned set. -/
theorem c7_search_counterexample :
    searchNotices [("k", ⟨"k", "xt", "dd", 1, none, true⟩)] " t" =
      .ok [⟨"k", "xt", "dd", 1, none, true⟩] ∧
    strIncludes (jsToLower "xt") (jsToLower " t") = false ∧
    strIncludes (jsToLower "dd") (jsToLower " t") = false :=
  ⟨by decide, by decide, by decide⟩

/-- C7, amended: `searchNotices` fails `InvalidInput` on a query that is
empty or blank after trimming, and otherwise returns, in key order,
exactly the stored records whose lower-cased title or description contains
the **trimmed** lower-cased query as a substring (the boolean filter is
characterized by the substring decomposition). -/
theorem c7_search (s : Store) (q : String) :
    ((q = "" ∨ (jsTrim q).length = 0) →
      searchNotices s q = .error (.InvalidInput "Search query cannot be empty")) ∧
    (¬(q = "" ∨ (jsTrim q).length = 0) →
      searchNotices s q = .ok ((NoticesStorage.values s).filter fun n =>
        strIncludes (jsToLower n.title) (jsTrim (jsToLower q)) ||
        strIncludes (jsToLower n.description) (jsTrim (jsToLower q))) ∧
      ∀ n : NoticeImpl,
        (strIncludes (jsToLower n.title) (jsTrim (jsToLower q)) ||
          strIncludes (jsToLower n.description) (jsTrim (jsToLower q))) = true ↔
        ((∃ u t, (jsToLower n.title).data = u ++ (jsTrim (jsToLower q)).data ++ t) ∨
         (∃ u t, (jsToLower n.description).data = u ++ (jsTrim (jsToLower q)).data ++ t))) := by
  constructor
  · intro h
    unfold searchNotices
    rw [if_pos h]
  · intro h
    constructor
    · unfold searchNotices
      rw [if_neg h]
    · intro n
      rw [Bool.or_eq_true, strIncludes_iff, strIncludes_iff]

/-- C7, witness: a blank query fails, and the search for `"CLOSURE"` in a
concrete store returns exactly the matching record of the filter. -/
theorem c7_search_witness :
    searchNotices [("k", ⟨"k", "Office Closure", "dd", 1, none, true⟩)] "  " =
      .error (.InvalidInput "Search query cannot be empty") ∧
    searchNotices [("k", ⟨"k", "Office Closure", "dd", 1, none, true⟩)] "CLOSURE" =
      .ok ((NoticesStorage.values [("k", ⟨"k", "Office Closure", "dd", 1, none, true⟩)]).filter
        fun n => strIncludes (jsToLower n.title) (jsTrim (jsToLower "CLOSURE")) ||
          strIncludes (jsToLower n.description) (jsTrim (jsToLower "CLOSURE"))) :=
  ⟨(c7_search [("k", ⟨"k", "Office Closure", "dd", 1, none, true⟩)] "  ").1 (by decide),
   ((c7_search [("k", ⟨"k", "Office Closure", "dd", 1, none, true⟩)] "CLOSURE").2 (by decide)).1⟩

/-- C8, counterexample: a payload that parses with every required field
present (`id`, `title`, `description`, `createdAt`) is nevertheless not
reconstructed — the validating constructor rejects the id `"a#"` — so
"for every payload with the required fields present, decode reconstructs
the Notice" fails as stated. -/
theorem c8_decode_counterexample :
    (⟨some "a#", some "t", some "d", some "1", none, none⟩ : NoticeData).id ≠ none ∧
    (⟨some "a#", some "t", some "d", some "1", none, none⟩ : NoticeData).title ≠ none ∧
    (⟨some "a#", some "t", some "d", some "1", none, none⟩ : NoticeData).description ≠ none ∧
    (⟨some "a#", some "t", some "d", some "1", none, none⟩ : NoticeData).createdAt ≠ none ∧
    NoticeImplSerialization.fromBytes ⟨some "a#", some "t", some "d", some "1", none, none⟩ =
      .error
        "Deserialization failed: ID can only contain alphanumeric characters, hyphens, and underscores" :=
  ⟨by decide, by decide, by decide, by decide, by decide⟩

/-- C8, amended: decode fails with the missing-field error whenever a
required field (`id`, `title`, `description`, `createdAt`) is absent; and
a payload whose required fields are present, whose `createdAt` is a
non-empty `BigInt`-convertible string, whose `updatedAt` converts (absent
or `null` meaning "no value"), and whose fields pass the validator, is
reconstructed with `isActive` defaulting to `true` when absent and
`updatedAt` absent unless a non-null, non-empty value was encoded. -/
theorem c8_decode (d : NoticeData) :
    ((d.id = none ∨ d.title = none ∨ d.description = none ∨ d.createdAt = none) →
      NoticeImplSerialization.fromBytes d =
        .error "Deserialization failed: Missing required fields in deserialized data") ∧
    (∀ (i t de cs : String) (cv : Nat) (uv : Option Nat),
      d.id = some i → d.title = some t → d.description = some de →
      d.createdAt = some cs → cs ≠ "" →
      jsBigInt? cs = some cv → decodeUpdatedAt d.updatedAt = some uv →
      validateNoticeInput i t de = .ok () →
      NoticeImplSerialization.fromBytes d = .ok ⟨i, t, de, cv, uv, d.isActive.getD true⟩) := by
  constructor
  · intro h
    have hcond : (falsyStr d.id || falsyStr d.title || falsyStr d.description ||
        falsyStr d.createdAt) = true := by
      rcases h with h | h | h | h <;> simp [h, falsyStr]
    unfold NoticeImplSerialization.fromBytes NoticeImplSerialization.fromBytesCore
    simp only [hcond, if_true]
    rfl
  · intro i t de cs cv uv hid htt hdd hcc hcs hbig hupd hval
    obtain ⟨hi, -, -, -, hti, -, -, hde2, -, -⟩ := validateNoticeInput_ok_facts hval
    have hcond : (falsyStr (some i) || falsyStr (some t) || falsyStr (some de) ||
        falsyStr (some cs)) = false := by
      simp [falsyStr, hi, hti, hde2, hcs]
    unfold NoticeImplSerialization.fromBytes NoticeImplSerialization.fromBytesCore
    simp only [hid, htt, hdd, hcc, hcond, Bool.false_eq_true, if_false, Option.getD_some,
      hbig, hupd]
    rw [NoticeImpl.make_ok hval]
    rfl

/-- C8, witness for the amended decode behavior: a complete payload with
`isActive` absent decodes to the record with `isActive = true` and
`updatedAt = some 9`. -/
theorem c8_decode_witness :
    NoticeImplSerialization.fromBytes ⟨some "a", some "t", some "d", some "7", some "9", none⟩ =
      .ok ⟨"a", "t", "d", 7, some 9, true⟩ :=
  (c8_decode ⟨some "a", some "t", some "d", some "7", some "9", none⟩).2 "a" "t" "d" "7" 7
    (some 9) rfl rfl rfl rfl (by decide) (by decide) (by decide) (by decide)

/-- Field constraints that C9 claims of every stored record. -/
def StoredNoticeValid (n : NoticeImpl) : Prop :=
  0 < (jsTrim n.id).length ∧ 0 < (jsTrim n.title).length ∧
  0 < (jsTrim n.description).length ∧ n.title.length ≤ 200 ∧ n.description.length ≤ 1000

instance (n : NoticeImpl) : Decidable (StoredNoticeValid n) := by
  unfold StoredNoticeValid
  infer_instance

/-- Every record produced by the validating constructor satisfies the
stored-record constraints. -/
theorem make_stored_valid {i t d : String} {c : Nat} {u : Option Nat} {a : Bool}
    {n : NoticeImpl} (h : NoticeImpl.make i t d c u a = .ok n) : StoredNoticeValid n := by
  obtain ⟨hn, hv⟩ := NoticeImpl.make_ok_inv h
  obtain ⟨-, hid0, -, -, -, hti0, ht2, -, hde0, hd2⟩ := validateNoticeInput_ok_facts hv
  subst hn
  exact ⟨Nat.pos_of_ne_zero hid0, Nat.pos_of_ne_zero hti0, Nat.pos_of_ne_zero hde0, ht2, hd2⟩

/-- A successful update step also went through the validating constructor. -/
theorem updateStep_ok_valid {now : Nat} {id : String} {ex : NoticeImpl}
    {t d : Option String} {a : Option Bool} {n : NoticeImpl}
    (h : updateStep now id ex t d a = .ok n) : StoredNoticeValid n := by
  unfold updateStep at h
  split at h
  · split at h
    · exact absurd h (by simp)
    · exact make_stored_valid h
  · exact make_stored_valid h

/-- C9: the stored-record invariant — non-blank trimmed `id`, `title` and
`description`, `title` of at most 200 characters, `description` of at most
1000 — is preserved by every store operation, because every insertion goes
through the validating constructor. -/
theorem c9_invariant (s : Store) (now : Nat) (cid ct cd : String) (ca : Bool)
    (uid : String) (ut ud : Option String) (ua : Option Bool) (did : String)
    (hs : ∀ p ∈ s, StoredNoticeValid p.2) :
    (∀ p ∈ (createNotice s now cid ct cd ca).2, StoredNoticeValid p.2) ∧
    (∀ p ∈ (updateNotice s now uid ut ud ua).2, StoredNoticeValid p.2) ∧
    (∀ p ∈ (deleteNotice s did).2, StoredNoticeValid p.2) := by
  refine ⟨?_, ?_, ?_⟩
  · unfold createNotice
    split
    · exact hs
    · cases hcr : NoticeImpl.create now cid ct cd ca with
      | error m => simp only [hcr]; exact hs
      | ok n =>
        simp only [hcr]
        intro p hp
        rcases NoticesStorage.mem_insert hp with rfl | hp'
        · exact make_stored_valid hcr
        · exact hs p hp'
  · unfold updateNotice
    cases hget : NoticesStorage.get s uid with
    | none => simp only [hget]; exact hs
    | some ex =>
      simp only [hget]
      cases hstep : updateStep now uid ex ut ud ua with
      | error m => simp only [hstep]; exact hs
      | ok n =>
        simp only [hstep]
        intro p hp
        rcases NoticesStorage.mem_insert hp with rfl | hp'
        · exact updateStep_ok_valid hstep
        · exact hs p hp'
  · unfold deleteNotice
    split
    · intro p hp
      exact hs p (NoticesStorage.mem_remove hp)
    · exact hs

/-- C9, witness: the record inserted by a concrete successful create on
the empty store satisfies the stored-record constraints. -/
theorem c9_invariant_witness : StoredNoticeValid ⟨"x", "t1", "d1", 0, none, true⟩ :=
  (c9_invariant [] 0 "x" "t1" "d1" true "z" none none none "z" (by simp)).1
    ("x", ⟨"x", "t1", "d1", 0, none, true⟩) (by decide)
